import Mathlib

/-!
Verification of the picoforge device-configuration core (src/src-tauri/src/lib.rs).

The development shallowly embeds the TLV codec, the APDU framing and the
orchestration of `write_config` / `read_device_details`.  Bytes are modelled
as `Nat` (with explicit `% 256` / bound hypotheses where the Rust types
guarantee a range), Rust `String`s holding VID/PID hex text are modelled as
Lean `String`s, and the USB product name is modelled by the UTF-8 byte
sequence of the Rust `String` (a Rust `String` is always valid UTF-8, which
appears as an explicit `validUtf8` hypothesis where needed).
-/

namespace Picoforge

/-- Error type of the application, mirroring `enum AppError`.  `Io` is the
variant used for validation failures ("Invalid VID", "Product name too
long"), `Device` for device-reported failures. -/
inductive AppError where
  | Pcsc : AppError
  | Io : String → AppError
  | Device : String → AppError
deriving DecidableEq, Repr

/-- The 8-byte rescue applet AID, `const RESCUE_AID`. -/
def RESCUE_AID : List Nat := [0xA0, 0x58, 0x3F, 0xC1, 0x9B, 0x7E, 0x4F, 0x21]

/-- Full decoded configuration, mirroring `struct AppConfig` (with
`product_name` as UTF-8 bytes). -/
structure AppConfig where
  vid : String
  pid : String
  product_name : List Nat
  led_gpio : Nat
  led_brightness : Nat
  touch_timeout : Nat
  led_driver : Option Nat
  led_dimmable : Bool
  power_cycle_on_reset : Bool
  led_steady : Bool
  enable_secp256k1 : Bool
deriving DecidableEq, Repr

/-- Mirror of `AppConfig::default()`: empty strings, zero bytes, `None` driver,
`false` booleans. -/
def AppConfig.default : AppConfig :=
  ⟨"", "", [], 0, 0, 0, none, false, false, false, false⟩

/-- Partial configuration input, mirroring `struct AppConfigInput`: every
field optional. -/
structure AppConfigInput where
  vid : Option String
  pid : Option String
  product_name : Option (List Nat)
  led_gpio : Option Nat
  led_brightness : Option Nat
  touch_timeout : Option Nat
  led_driver : Option Nat
  led_dimmable : Option Bool
  power_cycle_on_reset : Option Bool
  led_steady : Option Bool
  enable_secp256k1 : Option Bool
deriving Repr

/-- Rust `char::to_digit(16)` restricted to what `from_str_radix` feeds it:
hex digit value of a character, `none` for a non-digit. -/
def hexDigitVal (c : Char) : Option Nat :=
  if '0' ≤ c ∧ c ≤ '9' then some (c.toNat - 48)
  else if 'a' ≤ c ∧ c ≤ 'f' then some (c.toNat - 97 + 10)
  else if 'A' ≤ c ∧ c ≤ 'F' then some (c.toNat - 65 + 10)
  else none

/-- Digit-accumulation loop of `u16::from_str_radix(_, 16)`: multiply by the
radix and add, failing on a non-digit or on overflow past `u16::MAX`. -/
def parseHexGo (acc : Nat) : List Char → Option Nat
  | [] => some acc
  | c :: rest =>
    match hexDigitVal c with
    | none => none
    | some d => if acc * 16 + d ≤ 65535 then parseHexGo (acc * 16 + d) rest else none

/-- Model of `u16::from_str_radix(s, 16)` as used for VID/PID parsing.  A leading
`+` is skipped; for the unsigned target type a leading `-` succeeds only
when every remaining digit is zero (checked subtraction from zero), giving
0; the empty string and an empty digit sequence fail. -/
def fromStrRadix16 (s : String) : Option Nat :=
  match s.data with
  | [] => none
  | c :: rest =>
    if c = '+' then (if rest = [] then none else parseHexGo 0 rest)
    else if c = '-' then
      (if rest ≠ [] ∧ rest.all (fun x => x = '0') then some 0 else none)
    else parseHexGo 0 (c :: rest)

/-- Upper-case hex digit for one nibble, as produced by the 04X format. -/
def toHexDigit (n : Nat) : Char :=
  if n < 10 then Char.ofNat (48 + n) else Char.ofNat (55 + n)

/-- Rendering of a value below 65536 in the 04X format: exactly four upper-case hex
digits with leading zeros. -/
def hex4 (n : Nat) : String :=
  ⟨[toHexDigit (n / 4096 % 16), toHexDigit (n / 256 % 16),
    toHexDigit (n / 16 % 16), toHexDigit (n % 16)]⟩

/-- UTF-8 continuation byte test (`0x80..=0xBF`). -/
def isCont (b : Nat) : Bool := 128 ≤ b && b ≤ 191

/-- Leading byte of a two-byte sequence (`0xC2..=0xDF`). -/
def lead2 (b : Nat) : Bool := 0xC2 ≤ b && b ≤ 0xDF

/-- Leading byte of a three-byte sequence (`0xE0..=0xEF`). -/
def lead3 (b : Nat) : Bool := 0xE0 ≤ b && b ≤ 0xEF

/-- Leading byte of a four-byte sequence (`0xF0..=0xF4`). -/
def lead4 (b : Nat) : Bool := 0xF0 ≤ b && b ≤ 0xF4

/-- Admissible range of the first continuation byte after leading byte `b`:
narrowed for 0xE0, 0xED, 0xF0, 0xF4 to exclude overlong forms, surrogates
and values above U+10FFFF, plain `0x80..=0xBF` otherwise. -/
def cont1Range (b : Nat) : Nat × Nat :=
  if b = 0xE0 then (0xA0, 0xBF)
  else if b = 0xED then (0x80, 0x9F)
  else if b = 0xF0 then (0x90, 0xBF)
  else if b = 0xF4 then (0x80, 0x8F)
  else (0x80, 0xBF)

/-- UTF-8 validation automaton: `pending` is the list of admissible ranges
for the continuation bytes still owed by the current multi-byte sequence. -/
def utf8Go : List (Nat × Nat) → List Nat → Bool
  | [], [] => true
  | _ :: _, [] => false
  | [], b :: rest =>
    if b ≤ 0x7F then utf8Go [] rest
    else if lead2 b then utf8Go [cont1Range b] rest
    else if lead3 b then utf8Go [cont1Range b, (0x80, 0xBF)] rest
    else if lead4 b then utf8Go [cont1Range b, (0x80, 0xBF), (0x80, 0xBF)] rest
    else false
  | (lo, hi) :: ps, b :: rest =>
    if lo ≤ b ∧ b ≤ hi then utf8Go ps rest else false

/-- UTF-8 validity of a byte sequence, the acceptance condition of the Rust function
`std::str::from_utf8` (well-formed UTF-8: no overlong forms, no surrogates,
nothing above U+10FFFF). -/
def validUtf8 (xs : List Nat) : Bool := utf8Go [] xs

/-- Drop NUL bytes from the front of a byte list. -/
def trimNulLeft (xs : List Nat) : List Nat := xs.dropWhile (fun b => b == 0)

/-- Drop NUL bytes from the back of a byte list. -/
def trimNulRight (xs : List Nat) : List Nat :=
  (xs.reverse.dropWhile (fun b => b == 0)).reverse

/-- Model of `str::trim_matches(char::from(0))`: NUL bytes removed from both ends
(for valid UTF-8, trimming the NUL character coincides with trimming 0x00
bytes, since 0x00 never occurs inside a multi-byte sequence). -/
def trimNul (xs : List Nat) : List Nat := trimNulRight (trimNulLeft xs)

/-- One arm of the TLV decoding `match tag` in `read_device_details`
(lines 186-216): apply the record with tag `tag` and value `val` to the
configuration accumulated so far. -/
def decodeStep (cfg : AppConfig) (tag : Nat) (val : List Nat) : AppConfig :=
  match tag with
  | 0x00 =>
    if val.length = 4 then
      { cfg with vid := hex4 (val.getD 0 0 * 256 + val.getD 1 0),
                 pid := hex4 (val.getD 2 0 * 256 + val.getD 3 0) }
    else cfg
  | 0x04 => if val ≠ [] then { cfg with led_gpio := val.getD 0 0 } else cfg
  | 0x05 => if val ≠ [] then { cfg with led_brightness := val.getD 0 0 } else cfg
  | 0x08 => if val ≠ [] then { cfg with touch_timeout := val.getD 0 0 } else cfg
  | 0x09 =>
    { cfg with product_name := if validUtf8 val then trimNul val else [] }
  | 0x06 =>
    if 2 ≤ val.length then
      let opts := val.getD 0 0 * 256 + val.getD 1 0
      { cfg with led_dimmable := (opts &&& 0x02) != 0,
                 power_cycle_on_reset := (opts &&& 0x04) == 0,
                 led_steady := (opts &&& 0x08) != 0 }
    else cfg
  | 0x0A =>
    if 4 ≤ val.length then
      let curves := val.getD 0 0 * 16777216 + val.getD 1 0 * 65536 +
        val.getD 2 0 * 256 + val.getD 3 0
      { cfg with enable_secp256k1 := (curves &&& 0x08) != 0 }
    else cfg
  | 0x0C => if val ≠ [] then { cfg with led_driver := some (val.getD 0 0) } else cfg
  | _ => cfg

/-- The TLV scanning loop of `read_device_details` (lines 177-218).  Each
iteration needs a tag byte and a length byte, then `len` value bytes must
remain, else the scan stops silently.  The fuel argument only bounds the
iteration count; `decodeTLV` supplies `data.length`, which is always enough
because every iteration consumes at least two bytes. -/
def decodeGo : AppConfig → List Nat → Nat → AppConfig
  | cfg, [], _ => cfg
  | cfg, [_], _ => cfg
  | cfg, _ :: _ :: _, 0 => cfg
  | cfg, tag :: len :: rest, fuel + 1 =>
    if len ≤ rest.length then
      decodeGo (decodeStep cfg tag (rest.take len)) (rest.drop len) fuel
    else cfg

/-- TLV decode of a PHY-config payload into an `AppConfig`, starting from
`AppConfig::default()`. -/
def decodeTLV (data : List Nat) : AppConfig :=
  decodeGo AppConfig.default data data.length

/-- VIDPID record build (lines 280-288): emitted only when both fields are
present; each string parsed as hex, failures mapped to `Io` errors; value is
VID then PID, big-endian. -/
def encVidPid (v? p? : Option String) : Except AppError (List Nat) :=
  match v?, p? with
  | some vs, some ps =>
    match fromStrRadix16 vs with
    | none => .error (AppError.Io "Invalid VID")
    | some v =>
      match fromStrRadix16 ps with
      | none => .error (AppError.Io "Invalid PID")
      | some p => .ok [0x00, 0x04, v / 256, v % 256, p / 256, p % 256]
  | _, _ => .ok []

/-- LED GPIO record build (lines 291-295). -/
def encGpio (v? : Option Nat) : List Nat :=
  match v? with
  | some v => [0x04, 0x01, v]
  | none => []

/-- LED brightness record build (lines 298-302). -/
def encBrightness (v? : Option Nat) : List Nat :=
  match v? with
  | some v => [0x05, 0x01, v]
  | none => []

/-- Touch timeout record build (lines 305-309). -/
def encTouch (v? : Option Nat) : List Nat :=
  match v? with
  | some v => [0x08, 0x01, v]
  | none => []

/-- OPTIONS record build (lines 312-324): emitted only when all three
booleans are present; bit 0x02 from `led_dimmable`, bit 0x04 set when
`power_cycle_on_reset` is FALSE (inverted flag), bit 0x08 from
`led_steady`; written as a big-endian 16-bit value. -/
def encOpts (dim? cyc? st? : Option Bool) : List Nat :=
  match dim?, cyc?, st? with
  | some dim, some cyc, some st =>
    let o0 : Nat := 0
    let o1 := if dim then o0 ||| 0x02 else o0
    let o2 := if !cyc then o1 ||| 0x04 else o1
    let o3 := if st then o2 ||| 0x08 else o2
    [0x06, 0x02, o3 / 256, o3 % 256]
  | _, _, _ => []

/-- CURVES record build (lines 327-334): emitted whenever
`enable_secp256k1` is present, bit 0x08 of a big-endian 32-bit value. -/
def encCurves (en? : Option Bool) : List Nat :=
  match en? with
  | some en =>
    let c := if en then (0 : Nat) ||| 0x08 else 0
    [0x0A, 0x04, c / 16777216, c / 65536 % 256, c / 256 % 256, c % 256]
  | none => []

/-- LED driver record build (lines 337-341). -/
def encDriver (v? : Option Nat) : List Nat :=
  match v? with
  | some v => [0x0C, 0x01, v]
  | none => []

/-- Product name record build (lines 344-355): skipped when absent or
empty; value is the name bytes plus one trailing NUL, and its length
`name.len() + 1` must be at most 32, else the `Io` validation error. -/
def encName (name? : Option (List Nat)) : Except AppError (List Nat) :=
  match name? with
  | some name =>
    if name = [] then .ok []
    else if name.length + 1 > 32 then .error (AppError.Io "Product name too long")
    else .ok ([0x09, name.length + 1] ++ name ++ [0x00])
  | none => .ok []

/-- TLV encoding of a partial configuration, the blob-construction phase of
`write_config` (lines 277-355).  Records are appended in the source order;
the two fallible builds (VIDPID parse, product-name length check) fail in
the source order, VIDPID first. -/
def encodeConfig (c : AppConfigInput) : Except AppError (List Nat) := do
  let vp ← encVidPid c.vid c.pid
  let nm ← encName c.product_name
  pure (vp ++ encGpio c.led_gpio ++ encBrightness c.led_brightness ++
        encTouch c.touch_timeout ++
        encOpts c.led_dimmable c.power_cycle_on_reset c.led_steady ++
        encCurves c.enable_secp256k1 ++ encDriver c.led_driver ++ nm)

/-- Test that the response ends with the bytes 0x90 0x00, that is, carries the success status
word. -/
def statusOk (rx : List Nat) : Bool := List.isSuffixOf [0x90, 0x00] rx

/-- Abstract card device: whether a reader is present, and the response the
device gives to a transmitted frame.  PCSC transport-level failures are not
modelled; the transcript of transmitted frames is returned by the
operations below so that "no transmit happened" is expressible. -/
structure CardDevice where
  hasReader : Bool
  transmit : List Nat → List Nat

/-- The SELECT APDU `00 A4 04 04 08 <AID>` built in `connect_and_select`
(lines 124-125). -/
def selectApdu : List Nat := [0x00, 0xA4, 0x04, 0x04, 0x08] ++ RESCUE_AID

/-- Model of `connect_and_select` (lines 110-136): fail when no reader exists,
otherwise transmit the SELECT APDU and require the success status word.
Returns the result together with the frames transmitted. -/
def connect_and_select (dev : CardDevice) :
    Except AppError (List Nat) × List (List Nat) :=
  if dev.hasReader then
    let rx := dev.transmit selectApdu
    if statusOk rx then (.ok rx, [selectApdu])
    else (.error (AppError.Device "Rescue Applet not found on device. Is it in FIDO mode?"),
          [selectApdu])
  else (.error (AppError.Device "No Smart Card Reader found."), [])

/-- Model of `write_config` (lines 275-376): build the TLV blob; on a validation
error fail immediately; on an empty blob return "No changes to apply"
without touching the device; otherwise connect, select, and transmit
`80 1C 01 00 <len as u8> <blob>`, succeeding exactly on status 0x9000.
(The raw response bytes interpolated into the failure message are elided.)
The second component is the transcript of transmitted frames. -/
def write_config (dev : CardDevice) (c : AppConfigInput) :
    Except AppError String × List (List Nat) :=
  match encodeConfig c with
  | .error e => (.error e, [])
  | .ok tlv =>
    if tlv = [] then (.ok "No changes to apply", [])
    else
      match connect_and_select dev with
      | (.error e, fs) => (.error e, fs)
      | (.ok _, fs) =>
        let apdu := [0x80, 0x1C, 0x01, 0x00, tlv.length % 256] ++ tlv
        let rx := dev.transmit apdu
        if statusOk rx then (.ok "Configuration Applied Successfully", fs ++ [apdu])
        else (.error (AppError.Device "Write failed"), fs ++ [apdu])

/-- Secure-boot state parse in `read_device_details` (lines 163-168): when
the response ends with 0x9000 and is at least 4 bytes long (payload of at
least 2 bytes before the status word), bytes 0 and 1 give
enabled/locked; otherwise both default to `false`. -/
def parseSecureBoot (rx : List Nat) : Bool × Bool :=
  if statusOk rx ∧ 4 ≤ rx.length then (rx.getD 0 0 != 0, rx.getD 1 0 != 0)
  else (false, false)

/-! Helper definitions used only in specifications -/

/-- The sixteen upper-case hexadecimal digit characters. -/
def UPPER_HEX_CHARS : List Char :=
  ['0', '1', '2', '3', '4', '5', '6', '7', '8', '9', 'A', 'B', 'C', 'D', 'E', 'F']

/-- A character is an upper-case hexadecimal digit. -/
def isUpperHexDigit (c : Char) : Bool := UPPER_HEX_CHARS.contains c

/-- A string is exactly four upper-case hexadecimal digits, the format
the 04X format produces for a `u16`. -/
def isUpperHex4 (s : String) : Bool :=
  s.data.length == 4 && s.data.all isUpperHexDigit

/-- An abstract record sequence, flattened into TLV wire form: each record
contributes its tag, the length of its value, then the value bytes. -/
def tlvFlatten : List (Nat × List Nat) → List Nat
  | [] => []
  | (t, v) :: rs => t :: v.length :: (v ++ tlvFlatten rs)

/-! Basic lemmas about the decoder loop -/

lemma decodeGo_nil (cfg : AppConfig) (f : Nat) : decodeGo cfg [] f = cfg := by
  cases f <;> rfl

lemma decodeGo_record (cfg : AppConfig) (tag len : Nat) (val rest : List Nat) (f : Nat)
    (h : val.length = len) :
    decodeGo cfg (tag :: len :: (val ++ rest)) (f + 1) =
      decodeGo (decodeStep cfg tag val) rest f := by
  simp [decodeGo, ← h, List.take_left, List.drop_left]

lemma tlvFlatten_length (t : Nat) (v : List Nat) (rs : List (Nat × List Nat)) :
    (tlvFlatten ((t, v) :: rs)).length = v.length + (tlvFlatten rs).length + 2 := by
  simp [tlvFlatten]

/-- Decoding a flattened record sequence folds `decodeStep` over the
records, provided the fuel covers the byte length. -/
lemma decodeGo_tlvFlatten (recs : List (Nat × List Nat)) (cfg : AppConfig) (f : Nat)
    (hf : (tlvFlatten recs).length ≤ f) :
    decodeGo cfg (tlvFlatten recs) f =
      recs.foldl (fun c r => decodeStep c r.1 r.2) cfg := by
  induction recs generalizing cfg f with
  | nil => simpa [tlvFlatten] using decodeGo_nil cfg f
  | cons r rs ih =>
    obtain ⟨t, v⟩ := r
    have hlen := tlvFlatten_length t v rs
    cases f with
    | zero => omega
    | succ f =>
      show decodeGo cfg (t :: v.length :: (v ++ tlvFlatten rs)) (f + 1) = _
      rw [decodeGo_record cfg t v.length v (tlvFlatten rs) f rfl]
      rw [ih (decodeStep cfg t v) f (by omega)]
      rfl

lemma statusOk_append (xs : List Nat) : statusOk (xs ++ [0x90, 0x00]) = true := by
  simp [statusOk, List.isSuffixOf]

/-! Decomposition of the encoder -/

/-- A successful encode is the concatenation of the eight record builders,
in the fixed source order. -/
lemma encodeConfig_decompose (c : AppConfigInput) (bs : List Nat)
    (h : encodeConfig c = .ok bs) :
    ∃ vp nm, encVidPid c.vid c.pid = .ok vp ∧ encName c.product_name = .ok nm ∧
      bs = vp ++ encGpio c.led_gpio ++ encBrightness c.led_brightness ++
        encTouch c.touch_timeout ++
        encOpts c.led_dimmable c.power_cycle_on_reset c.led_steady ++
        encCurves c.enable_secp256k1 ++ encDriver c.led_driver ++ nm := by
  unfold encodeConfig at h
  cases hvp : encVidPid c.vid c.pid with
  | error e => rw [hvp] at h; simp [Bind.bind, Except.bind] at h
  | ok vp =>
    cases hnm : encName c.product_name with
    | error e => rw [hvp, hnm] at h; simp [Bind.bind, Except.bind] at h
    | ok nm =>
      rw [hvp, hnm] at h
      simp only [Bind.bind, Except.bind, pure, Except.pure, Except.ok.injEq] at h
      exact ⟨vp, nm, rfl, rfl, h.symm⟩

/-! Hexadecimal parse/format correspondence -/

lemma upperHexDigit_spec (c : Char) (h : isUpperHexDigit c = true) :
    c ≠ '+' ∧ c ≠ '-' ∧ hexDigitVal c = some ((hexDigitVal c).getD 0) ∧
      (hexDigitVal c).getD 0 < 16 ∧ toHexDigit ((hexDigitVal c).getD 0) = c := by
  have hm : c ∈ UPPER_HEX_CHARS := by
    simpa [isUpperHexDigit, List.contains, List.elem_iff] using h
  fin_cases hm <;> exact ⟨by decide, by decide, by decide, by decide, by decide⟩

lemma parseHexGo_cons (acc : Nat) (c : Char) (rest : List Char) (d : Nat)
    (hd : hexDigitVal c = some d) (hle : acc * 16 + d ≤ 65535) :
    parseHexGo acc (c :: rest) = parseHexGo (acc * 16 + d) rest := by
  simp [parseHexGo, hd, hle]

/-- Parsing four upper-case hex digits succeeds with a value below 2^16,
and `hex4` renders that value back to the same string. -/
lemma upperHex4_parse (s : String) (h : isUpperHex4 s = true) :
    ∃ v, fromStrRadix16 s = some v ∧ v < 65536 ∧ hex4 v = s := by
  obtain ⟨data⟩ := s
  simp only [isUpperHex4, Bool.and_eq_true, beq_iff_eq, List.all_eq_true] at h
  obtain ⟨hlen, hall⟩ := h
  match data, hlen with
  | [c0, c1, c2, c3], _ =>
    obtain ⟨hp0, hm0, he0, hb0, ht0⟩ := upperHexDigit_spec c0 (hall c0 (by simp))
    obtain ⟨hp1, hm1, he1, hb1, ht1⟩ := upperHexDigit_spec c1 (hall c1 (by simp))
    obtain ⟨hp2, hm2, he2, hb2, ht2⟩ := upperHexDigit_spec c2 (hall c2 (by simp))
    obtain ⟨hp3, hm3, he3, hb3, ht3⟩ := upperHexDigit_spec c3 (hall c3 (by simp))
    set d0 := (hexDigitVal c0).getD 0 with hd0
    set d1 := (hexDigitVal c1).getD 0 with hd1
    set d2 := (hexDigitVal c2).getD 0 with hd2
    set d3 := (hexDigitVal c3).getD 0 with hd3
    refine ⟨((d0 * 16 + d1) * 16 + d2) * 16 + d3, ?_, by omega, ?_⟩
    · show fromStrRadix16 ⟨[c0, c1, c2, c3]⟩ = _
      unfold fromStrRadix16
      simp only [if_neg hp0, if_neg hm0]
      rw [parseHexGo_cons 0 c0 _ d0 he0 (by omega)]
      rw [show (0 : Nat) * 16 + d0 = d0 by omega]
      rw [parseHexGo_cons d0 c1 _ d1 he1 (by omega)]
      rw [parseHexGo_cons (d0 * 16 + d1) c2 _ d2 he2 (by omega)]
      rw [parseHexGo_cons ((d0 * 16 + d1) * 16 + d2) c3 _ d3 he3 (by omega)]
      rfl
    · have e0 : (((d0 * 16 + d1) * 16 + d2) * 16 + d3) / 4096 % 16 = d0 := by omega
      have e1 : (((d0 * 16 + d1) * 16 + d2) * 16 + d3) / 256 % 16 = d1 := by omega
      have e2 : (((d0 * 16 + d1) * 16 + d2) * 16 + d3) / 16 % 16 = d2 := by omega
      have e3 : (((d0 * 16 + d1) * 16 + d2) * 16 + d3) % 16 = d3 := by omega
      show hex4 _ = ⟨[c0, c1, c2, c3]⟩
      unfold hex4
      rw [e0, e1, e2, e3, ht0, ht1, ht2, ht3]

/-! UTF-8 and NUL-trimming lemmas -/

lemma utf8Go_append_nul :
    ∀ (xs : List Nat) (ps : List (Nat × Nat)), utf8Go ps xs = true →
      utf8Go ps (xs ++ [0]) = true := by
  intro xs
  induction xs with
  | nil =>
    intro ps h
    cases ps with
    | nil => decide
    | cons p ps => rw [utf8Go] at h; exact absurd h (by simp)
  | cons b rest ih =>
    intro ps h
    cases ps with
    | nil =>
      rw [List.cons_append]
      rw [utf8Go.eq_def] at h ⊢
      dsimp only at h ⊢
      split_ifs at h ⊢ <;> exact ih _ h
    | cons p ps =>
      obtain ⟨lo, hi⟩ := p
      rw [List.cons_append]
      rw [utf8Go.eq_def] at h ⊢
      dsimp only at h ⊢
      split_ifs at h ⊢
      exact ih _ h

/-- Appending a NUL byte preserves UTF-8 validity (NUL is a complete
one-byte character). -/
lemma validUtf8_append_nul (xs : List Nat) (h : validUtf8 xs = true) :
    validUtf8 (xs ++ [0]) = true :=
  utf8Go_append_nul xs [] h

lemma dropWhile_nul_of_head (a : Nat) (t : List Nat) (ha : a ≠ 0) :
    (a :: t).dropWhile (fun b => b == 0) = a :: t := by
  simp [List.dropWhile_cons, ha]

/-- The head of `dropWhile (== 0)` is never a NUL. -/
lemma head_dropWhile_nul (xs : List Nat) :
    (xs.dropWhile (fun b => b == 0)).head? ≠ some 0 := by
  induction xs with
  | nil => simp
  | cons a t ih =>
    by_cases ha : a = 0
    · simpa [List.dropWhile_cons, ha] using ih
    · simp [List.dropWhile_cons, ha]

/-- Trimming NULs from a byte list with a clean head, a clean last byte and
one appended NUL recovers the original list. -/
lemma trimNul_append_nul (xs : List Nat) (hne : xs ≠ [])
    (hh : xs.head? ≠ some 0) (hl : xs.getLast? ≠ some 0) :
    trimNul (xs ++ [0]) = xs := by
  unfold trimNul trimNulLeft trimNulRight
  have h1 : (xs ++ [0]).dropWhile (fun b => b == 0) = xs ++ [0] := by
    cases xs with
    | nil => exact absurd rfl hne
    | cons a t =>
      have ha : a ≠ 0 := by simpa using hh
      simpa [List.cons_append] using dropWhile_nul_of_head a (t ++ [0]) ha
  rw [h1, List.reverse_append]
  show ((0 :: xs.reverse).dropWhile (fun b => b == 0)).reverse = xs
  rw [List.dropWhile_cons]
  simp only [beq_self_eq_true, if_pos]
  have h2 : xs.reverse.dropWhile (fun b => b == 0) = xs.reverse := by
    cases hr : xs.reverse with
    | nil => simp
    | cons a t =>
      have ha : a ≠ 0 := by
        intro h0
        apply hl
        rw [← List.head?_reverse, hr, h0]
        rfl
      exact dropWhile_nul_of_head a t ha
  rw [h2, List.reverse_reverse]

/-- The function `hex4` always renders four upper-case hex digits. -/
lemma hex4_isUpperHex4 (n : Nat) : isUpperHex4 (hex4 n) = true := by
  have h0 : n / 4096 % 16 < 16 := Nat.mod_lt _ (by omega)
  have h1 : n / 256 % 16 < 16 := Nat.mod_lt _ (by omega)
  have h2 : n / 16 % 16 < 16 := Nat.mod_lt _ (by omega)
  have h3 : n % 16 < 16 := Nat.mod_lt _ (by omega)
  have key : ∀ d : Nat, d < 16 → isUpperHexDigit (toHexDigit d) = true := by
    intro d hd
    interval_cases d <;> decide
  simp only [isUpperHex4, hex4, List.all_eq_true, Bool.and_eq_true, beq_iff_eq]
  refine ⟨rfl, ?_⟩
  intro c hc
  simp only [List.mem_cons, List.not_mem_nil, or_false] at hc
  rcases hc with rfl | rfl | rfl | rfl
  · exact key _ h0
  · exact key _ h1
  · exact key _ h2
  · exact key _ h3


/-! length bound lemmas -/

lemma encVidPid_length (v? p? : Option String) (l : List Nat)
    (h : encVidPid v? p? = .ok l) : l.length ≤ 6 := by
  cases v? with
  | none =>
    simp only [encVidPid, Except.ok.injEq] at h
    subst h
    simp
  | some vs =>
    cases p? with
    | none =>
      simp only [encVidPid, Except.ok.injEq] at h
      subst h
      simp
    | some ps =>
      unfold encVidPid at h
      dsimp only at h
      cases hv : fromStrRadix16 vs <;> rw [hv] at h
      · simp at h
      · cases hp : fromStrRadix16 ps <;> rw [hp] at h
        · simp at h
        · simp only [Except.ok.injEq] at h
          subst h
          simp

lemma encName_length (n? : Option (List Nat)) (l : List Nat)
    (h : encName n? = .ok l) : l.length ≤ 34 := by
  unfold encName at h
  split at h
  · split at h
    · simp_all
    · split at h
      · simp_all
      · rename_i name hne hle
        simp only [Except.ok.injEq] at h
        subst h
        simp only [List.length_append, List.length_cons]
        simp at hle
        simp
        omega
  · simp_all

lemma encGpio_length (v? : Option Nat) : (encGpio v?).length ≤ 3 := by
  cases v? <;> simp [encGpio]

lemma encBrightness_length (v? : Option Nat) : (encBrightness v?).length ≤ 3 := by
  cases v? <;> simp [encBrightness]

lemma encTouch_length (v? : Option Nat) : (encTouch v?).length ≤ 3 := by
  cases v? <;> simp [encTouch]

lemma encDriver_length (v? : Option Nat) : (encDriver v?).length ≤ 3 := by
  cases v? <;> simp [encDriver]

lemma encOpts_length (a b c : Option Bool) : (encOpts a b c).length ≤ 4 := by
  unfold encOpts
  split <;> simp

lemma encCurves_length (e : Option Bool) : (encCurves e).length ≤ 6 := by
  cases e <;> simp [encCurves]

/-- C9 -/
theorem C9_frame_length (c : AppConfigInput) (bs : List Nat)
    (h : encodeConfig c = .ok bs) :
    bs.length ≤ 255 ∧ bs.length % 256 = bs.length := by
  obtain ⟨vp, nm, hvp, hnm, rfl⟩ := encodeConfig_decompose c bs h
  have h1 := encVidPid_length _ _ _ hvp
  have h2 := encName_length _ _ hnm
  have h3 := encGpio_length c.led_gpio
  have h4 := encBrightness_length c.led_brightness
  have h5 := encTouch_length c.touch_timeout
  have h6 := encOpts_length c.led_dimmable c.power_cycle_on_reset c.led_steady
  have h7 := encCurves_length c.enable_secp256k1
  have h8 := encDriver_length c.led_driver
  have hle : (vp ++ encGpio c.led_gpio ++ encBrightness c.led_brightness ++
      encTouch c.touch_timeout ++
      encOpts c.led_dimmable c.power_cycle_on_reset c.led_steady ++
      encCurves c.enable_secp256k1 ++ encDriver c.led_driver ++ nm).length ≤ 255 := by
    simp only [List.length_append]
    omega
  exact ⟨hle, Nat.mod_eq_of_lt (by omega)⟩

theorem C9_witness :
    ([0x04, 0x01, 0x03] : List Nat).length ≤ 255 ∧
      ([0x04, 0x01, 0x03] : List Nat).length % 256 = ([0x04, 0x01, 0x03] : List Nat).length :=
  C9_frame_length ⟨none, none, none, some 3, none, none, none, none, none, none, none⟩ _ rfl

/-- C5 -/
theorem C5_empty_update (dev : CardDevice) (c : AppConfigInput)
    (h : encodeConfig c = .ok []) :
    write_config dev c = (.ok "No changes to apply", []) := by
  simp [write_config, h]

def testDevice : CardDevice := ⟨true, fun _ => [0x90, 0x00]⟩

def emptyInput : AppConfigInput :=
  ⟨none, none, none, none, none, none, none, none, none, none, none⟩

theorem C5_witness :
    write_config testDevice emptyInput = (.ok "No changes to apply", []) :=
  C5_empty_update testDevice emptyInput rfl

/-- C7 -/
theorem C7_secure_boot (rx : List Nat) :
    parseSecureBoot rx =
      if statusOk rx = true ∧ 2 ≤ (rx.take (rx.length - 2)).length then
        ((rx.take (rx.length - 2)).getD 0 0 != 0, (rx.take (rx.length - 2)).getD 1 0 != 0)
      else (false, false) := by
  have hlen : (rx.take (rx.length - 2)).length = rx.length - 2 := by
    rw [List.length_take]
    omega
  unfold parseSecureBoot
  by_cases hs : statusOk rx = true
  · by_cases h4 : 4 ≤ rx.length
    · rw [if_pos ⟨hs, h4⟩, if_pos ⟨hs, by omega⟩]
      have g0 : (rx.take (rx.length - 2)).getD 0 0 = rx.getD 0 0 := by
        rw [List.getD_eq_getElem?_getD, List.getD_eq_getElem?_getD,
          List.getElem?_take_of_lt (by omega)]
      have g1 : (rx.take (rx.length - 2)).getD 1 0 = rx.getD 1 0 := by
        rw [List.getD_eq_getElem?_getD, List.getD_eq_getElem?_getD,
          List.getElem?_take_of_lt (by omega)]
      rw [g0, g1]
    · rw [if_neg (by omega), if_neg (by omega)]
  · rw [if_neg (by simp [hs]), if_neg (by simp [hs])]

/-- C10 -/
theorem C10_lone_vid :
    (∀ c : AppConfigInput, ¬(c.vid.isSome = true ∧ c.pid.isSome = true) →
      encodeConfig c = encodeConfig { c with vid := none, pid := none }) ∧
    (∀ (s : String) (dev : CardDevice),
      write_config dev ⟨some s, none, none, none, none, none, none, none, none, none, none⟩ =
        (.ok "No changes to apply", [])) := by
  constructor
  · intro c hc
    have hvp : encVidPid c.vid c.pid = .ok [] := by
      cases hv : c.vid with
      | none => cases hp : c.pid <;> rfl
      | some vs =>
        cases hp : c.pid with
        | none => rfl
        | some ps => exact absurd ⟨by simp [hv], by simp [hp]⟩ hc
    simp only [encodeConfig]
    rw [hvp]
    rfl
  · intro s dev
    rfl

theorem C10_witness :
    encodeConfig ⟨some "ZZ", none, some [65], none, none, none, none, none, none, none, none⟩ =
      encodeConfig ⟨none, none, some [65], none, none, none, none, none, none, none, none⟩ ∧
    write_config testDevice ⟨some "ZZ", none, none, none, none, none, none, none, none, none, none⟩ =
      (.ok "No changes to apply", []) :=
  ⟨C10_lone_vid.1 ⟨some "ZZ", none, some [65], none, none, none, none, none, none, none, none⟩
      (by simp),
    C10_lone_vid.2 "ZZ" testDevice⟩


lemma encOpts_some (dim cyc st : Bool) :
    encOpts (some dim) (some cyc) (some st) =
      [0x06, 0x02, 0x00,
        (if dim then 2 else 0) + (if cyc then 0 else 4) + (if st then 8 else 0)] := by
  cases dim <;> cases cyc <;> cases st <;> rfl

/-- C2 -/
theorem C2_options_bitmask :
    (∀ (c : AppConfigInput) (dim cyc st : Bool) (bs : List Nat),
      c.led_dimmable = some dim → c.power_cycle_on_reset = some cyc →
      c.led_steady = some st → encodeConfig c = .ok bs →
      ∃ pre post lo, bs = pre ++ [0x06, 0x02, 0x00, lo] ++ post ∧
        ((lo &&& 0x04 ≠ 0) ↔ cyc = false) ∧
        ((lo &&& 0x02 ≠ 0) ↔ dim = true) ∧
        ((lo &&& 0x08 ≠ 0) ↔ st = true)) ∧
    (∀ (cfg : AppConfig) (val : List Nat), 2 ≤ val.length →
      ((decodeStep cfg 0x06 val).power_cycle_on_reset = true ↔
        ((val.getD 0 0 * 256 + val.getD 1 0) &&& 0x04) = 0) ∧
      ((decodeStep cfg 0x06 val).led_dimmable = true ↔
        ((val.getD 0 0 * 256 + val.getD 1 0) &&& 0x02) ≠ 0) ∧
      ((decodeStep cfg 0x06 val).led_steady = true ↔
        ((val.getD 0 0 * 256 + val.getD 1 0) &&& 0x08) ≠ 0)) := by
  constructor
  · intro c dim cyc st bs hd hc hs hok
    obtain ⟨vp, nm, hvp, hnm, hbs⟩ := encodeConfig_decompose c bs hok
    subst hbs
    rw [hd, hc, hs]
    refine ⟨vp ++ encGpio c.led_gpio ++ encBrightness c.led_brightness ++
        encTouch c.touch_timeout,
      encCurves c.enable_secp256k1 ++ encDriver c.led_driver ++ nm,
      (if dim then 2 else 0) + (if cyc then 0 else 4) + (if st then 8 else 0),
      ?_, ?_, ?_, ?_⟩
    · rw [encOpts_some]
      simp [List.append_assoc]
    · cases dim <;> cases cyc <;> cases st <;> decide
    · cases dim <;> cases cyc <;> cases st <;> decide
    · cases dim <;> cases cyc <;> cases st <;> decide
  · intro cfg val hlen
    have h6 : decodeStep cfg 0x06 val =
        { cfg with
          led_dimmable := ((val.getD 0 0 * 256 + val.getD 1 0) &&& 0x02) != 0,
          power_cycle_on_reset := ((val.getD 0 0 * 256 + val.getD 1 0) &&& 0x04) == 0,
          led_steady := ((val.getD 0 0 * 256 + val.getD 1 0) &&& 0x08) != 0 } := by
      simp [decodeStep, hlen]
    rw [h6]
    refine ⟨?_, ?_, ?_⟩ <;> simp [beq_iff_eq, bne_iff_ne]

theorem C2_witness :
    (∃ pre post lo,
      [0x06, 0x02, 0x00, 0x0A] = pre ++ [0x06, 0x02, 0x00, lo] ++ post ∧
        ((lo &&& 0x04 ≠ 0) ↔ true = false) ∧
        ((lo &&& 0x02 ≠ 0) ↔ true = true) ∧
        ((lo &&& 0x08 ≠ 0) ↔ true = true)) ∧
    (((decodeStep AppConfig.default 0x06 [0x00, 0x0A]).power_cycle_on_reset = true ↔
        ((([0x00, 0x0A] : List Nat).getD 0 0 * 256 + ([0x00, 0x0A] : List Nat).getD 1 0) &&& 0x04) = 0) ∧
      ((decodeStep AppConfig.default 0x06 [0x00, 0x0A]).led_dimmable = true ↔
        ((([0x00, 0x0A] : List Nat).getD 0 0 * 256 + ([0x00, 0x0A] : List Nat).getD 1 0) &&& 0x02) ≠ 0) ∧
      ((decodeStep AppConfig.default 0x06 [0x00, 0x0A]).led_steady = true ↔
        ((([0x00, 0x0A] : List Nat).getD 0 0 * 256 + ([0x00, 0x0A] : List Nat).getD 1 0) &&& 0x08) ≠ 0)) :=
  ⟨C2_options_bitmask.1
      ⟨none, none, none, none, none, none, none, some true, some true, some true, none⟩
      true true true [0x06, 0x02, 0x00, 0x0A] rfl rfl rfl rfl,
    C2_options_bitmask.2 AppConfig.default [0x00, 0x0A] (by decide)⟩

/-- C6 counterexample -/
theorem C6_counterexample :
    (decodeTLV [0x00, 0x05, 0x12, 0x34, 0x56, 0x78, 0xAA]).vid = "" ∧
    ¬((decodeTLV [0x00, 0x05, 0x12, 0x34, 0x56, 0x78, 0xAA]).vid = "1234" ∧
      (decodeTLV [0x00, 0x05, 0x12, 0x34, 0x56, 0x78, 0xAA]).pid = "5678") := by
  decide

/-- C6 amended -/
theorem C6_vidpid_decode :
    (∀ (cfg : AppConfig) (val : List Nat), val.length = 4 →
      (decodeStep cfg 0x00 val).vid = hex4 (val.getD 0 0 * 256 + val.getD 1 0) ∧
      (decodeStep cfg 0x00 val).pid = hex4 (val.getD 2 0 * 256 + val.getD 3 0) ∧
      isUpperHex4 (decodeStep cfg 0x00 val).vid = true ∧
      isUpperHex4 (decodeStep cfg 0x00 val).pid = true ∧
      (decodeStep cfg 0x00 val).product_name = cfg.product_name ∧
      (decodeStep cfg 0x00 val).led_gpio = cfg.led_gpio ∧
      (decodeStep cfg 0x00 val).led_driver = cfg.led_driver) ∧
    (∀ (cfg : AppConfig) (val : List Nat), val.length ≠ 4 →
      decodeStep cfg 0x00 val = cfg) := by
  constructor
  · intro cfg val hlen
    have h0 : decodeStep cfg 0x00 val =
        { cfg with vid := hex4 (val.getD 0 0 * 256 + val.getD 1 0),
                   pid := hex4 (val.getD 2 0 * 256 + val.getD 3 0) } := by
      simp [decodeStep, hlen]
    rw [h0]
    exact ⟨rfl, rfl, hex4_isUpperHex4 _, hex4_isUpperHex4 _, rfl, rfl, rfl⟩
  · intro cfg val hlen
    simp [decodeStep, hlen]

theorem C6_witness :
    ((decodeStep AppConfig.default 0x00 [0x12, 0x34, 0x56, 0x78]).vid =
        hex4 (([0x12, 0x34, 0x56, 0x78] : List Nat).getD 0 0 * 256 +
          ([0x12, 0x34, 0x56, 0x78] : List Nat).getD 1 0) ∧
      (decodeStep AppConfig.default 0x00 [0x12, 0x34, 0x56, 0x78]).pid =
        hex4 (([0x12, 0x34, 0x56, 0x78] : List Nat).getD 2 0 * 256 +
          ([0x12, 0x34, 0x56, 0x78] : List Nat).getD 3 0) ∧
      isUpperHex4 (decodeStep AppConfig.default 0x00 [0x12, 0x34, 0x56, 0x78]).vid = true ∧
      isUpperHex4 (decodeStep AppConfig.default 0x00 [0x12, 0x34, 0x56, 0x78]).pid = true ∧
      (decodeStep AppConfig.default 0x00 [0x12, 0x34, 0x56, 0x78]).product_name =
        AppConfig.default.product_name ∧
      (decodeStep AppConfig.default 0x00 [0x12, 0x34, 0x56, 0x78]).led_gpio =
        AppConfig.default.led_gpio ∧
      (decodeStep AppConfig.default 0x00 [0x12, 0x34, 0x56, 0x78]).led_driver =
        AppConfig.default.led_driver) ∧
    decodeStep AppConfig.default 0x00 [0x12, 0x34] = AppConfig.default :=
  ⟨C6_vidpid_decode.1 AppConfig.default [0x12, 0x34, 0x56, 0x78] (by decide),
    C6_vidpid_decode.2 AppConfig.default [0x12, 0x34] (by decide)⟩

lemma takeWhile_nul_replicate (xs : List Nat) :
    xs.takeWhile (fun b => b == 0) =
      List.replicate (xs.takeWhile (fun b => b == 0)).length 0 := by
  apply List.eq_replicate_of_mem
  intro b hb
  have hmem := List.mem_takeWhile_imp hb
  simpa using hmem

/-- Any byte list splits as leading NULs, its both-ends NUL-trim, and
trailing NULs; the trim has no NUL at either end. -/
lemma trimNul_decomp (xs : List Nat) :
    ∃ k m, xs = List.replicate k 0 ++ trimNul xs ++ List.replicate m 0 ∧
      (trimNul xs).head? ≠ some 0 ∧ (trimNul xs).getLast? ≠ some 0 := by
  have hA : xs = List.replicate (xs.takeWhile (fun b => b == 0)).length 0 ++
      trimNulLeft xs := by
    conv_lhs => rw [← List.takeWhile_append_dropWhile (p := fun b => b == 0) (l := xs)]
    rw [← takeWhile_nul_replicate]
    rfl
  have hB : trimNulLeft xs = trimNul xs ++
      List.replicate ((trimNulLeft xs).reverse.takeWhile (fun b => b == 0)).length 0 := by
    show trimNulLeft xs = trimNulRight (trimNulLeft xs) ++ _
    conv_lhs => rw [← List.reverse_reverse (trimNulLeft xs),
      ← List.takeWhile_append_dropWhile (p := fun b => b == 0)
        (l := (trimNulLeft xs).reverse)]
    rw [List.reverse_append]
    unfold trimNulRight
    congr 1
    rw [← takeWhile_nul_replicate]
    rw [takeWhile_nul_replicate ((trimNulLeft xs).reverse), List.reverse_replicate]
  have hhead : (trimNul xs).head? ≠ some 0 := by
    have hys : (trimNulLeft xs).head? ≠ some 0 := head_dropWhile_nul xs
    cases hc : trimNul xs with
    | nil => simp
    | cons a t =>
      rw [hc] at hB
      rw [hB] at hys
      simpa using hys
  have hlast : (trimNul xs).getLast? ≠ some 0 := by
    show (trimNulRight (trimNulLeft xs)).getLast? ≠ some 0
    unfold trimNulRight
    rw [List.getLast?_reverse]
    exact head_dropWhile_nul _
  refine ⟨(xs.takeWhile (fun b => b == 0)).length,
    ((trimNulLeft xs).reverse.takeWhile (fun b => b == 0)).length, ?_, hhead, hlast⟩
  calc xs = List.replicate (xs.takeWhile (fun b => b == 0)).length 0 ++ trimNulLeft xs := hA
    _ = List.replicate (xs.takeWhile (fun b => b == 0)).length 0 ++
        (trimNul xs ++
          List.replicate ((trimNulLeft xs).reverse.takeWhile (fun b => b == 0)).length 0) := by
      rw [← hB]
    _ = List.replicate (xs.takeWhile (fun b => b == 0)).length 0 ++ trimNul xs ++
        List.replicate ((trimNulLeft xs).reverse.takeWhile (fun b => b == 0)).length 0 := by
      rw [List.append_assoc]

/-- C8 counterexample: a leading NUL is also removed. -/
theorem C8_counterexample :
    (decodeTLV [0x09, 0x02, 0x00, 0x41]).product_name = [0x41] ∧
    (decodeTLV [0x09, 0x02, 0x00, 0x41]).product_name ≠ [0x00, 0x41] := by
  decide

/-- C8 amended -/
theorem C8_product_trim :
    ∀ (cfg : AppConfig) (val : List Nat), validUtf8 val = true →
      ∃ k m,
        val = List.replicate k 0 ++ (decodeStep cfg 0x09 val).product_name ++
          List.replicate m 0 ∧
        (decodeStep cfg 0x09 val).product_name.head? ≠ some 0 ∧
        (decodeStep cfg 0x09 val).product_name.getLast? ≠ some 0 := by
  intro cfg val hv
  have hstep : (decodeStep cfg 0x09 val).product_name = trimNul val := by
    simp [decodeStep, hv]
  rw [hstep]
  exact trimNul_decomp val

theorem C8_witness :
    ∃ k m,
      [0x00, 0x41] = List.replicate k 0 ++
        (decodeStep AppConfig.default 0x09 [0x00, 0x41]).product_name ++
        List.replicate m 0 ∧
      (decodeStep AppConfig.default 0x09 [0x00, 0x41]).product_name.head? ≠ some 0 ∧
      (decodeStep AppConfig.default 0x09 [0x00, 0x41]).product_name.getLast? ≠ some 0 :=
  C8_product_trim AppConfig.default [0x00, 0x41] (by decide)

/-! Shape lemmas for the fallible record builders -/

lemma encVidPid_shape (v? p? : Option String) (l : List Nat)
    (h : encVidPid v? p? = .ok l) :
    (∃ vs ps v p, v? = some vs ∧ p? = some ps ∧ fromStrRadix16 vs = some v ∧
      fromStrRadix16 ps = some p ∧
      l = [0x00, 0x04, v / 256, v % 256, p / 256, p % 256]) ∨
    ((v? = none ∨ p? = none) ∧ l = []) := by
  cases v? with
  | none =>
    right
    refine ⟨Or.inl rfl, ?_⟩
    cases p? <;>
      exact (Except.ok.inj ((show encVidPid none _ = Except.ok [] from rfl).symm.trans h)).symm
  | some vs =>
    cases p? with
    | none =>
      right
      refine ⟨Or.inr rfl, ?_⟩
      exact (Except.ok.inj
        ((show encVidPid (some vs) none = Except.ok [] from rfl).symm.trans h)).symm
    | some ps =>
      left
      unfold encVidPid at h
      dsimp only at h
      cases hv : fromStrRadix16 vs <;> rw [hv] at h
      · simp at h
      · cases hp : fromStrRadix16 ps <;> rw [hp] at h
        · simp at h
        · simp only [Except.ok.injEq] at h
          exact ⟨vs, ps, _, _, rfl, rfl, hv, hp, h.symm⟩

lemma encVidPid_ok_of (vs ps : String) (v p : Nat)
    (hv : fromStrRadix16 vs = some v) (hp : fromStrRadix16 ps = some p) :
    encVidPid (some vs) (some ps) = .ok [0x00, 0x04, v / 256, v % 256, p / 256, p % 256] := by
  unfold encVidPid
  dsimp only
  rw [hv, hp]

lemma encName_shape (n? : Option (List Nat)) (l : List Nat)
    (h : encName n? = .ok l) :
    (∃ name, n? = some name ∧ name ≠ [] ∧ name.length + 1 ≤ 32 ∧
      l = [0x09, name.length + 1] ++ name ++ [0x00]) ∨
    ((n? = none ∨ n? = some []) ∧ l = []) := by
  cases n? with
  | none =>
    right
    exact ⟨Or.inl rfl,
      (Except.ok.inj ((show encName none = Except.ok [] from rfl).symm.trans h)).symm⟩
  | some name =>
    unfold encName at h
    dsimp only at h
    split at h
    · right
      rename_i hnil
      exact ⟨Or.inr (by rw [hnil]), by simpa using h.symm⟩
    · split at h
      · simp at h
      · left
        rename_i hnil hle
        simp only [Except.ok.injEq] at h
        exact ⟨name, rfl, hnil, by omega, h.symm⟩

lemma encName_ok_of (name : List Nat) (hne : name ≠ []) (hle : name.length + 1 ≤ 32) :
    encName (some name) = .ok ([0x09, name.length + 1] ++ name ++ [0x00]) := by
  unfold encName
  dsimp only
  rw [if_neg hne, if_neg (by omega)]

lemma encName_err_of (name : List Nat) (h32 : 32 ≤ name.length) :
    encName (some name) = .error (AppError.Io "Product name too long") := by
  have hne : name ≠ [] := by
    intro h
    rw [h] at h32
    simp at h32
  unfold encName
  dsimp only
  rw [if_neg hne, if_pos (by omega)]

lemma encodeConfig_ok_of (c : AppConfigInput) (vp nm : List Nat)
    (hvp : encVidPid c.vid c.pid = .ok vp) (hnm : encName c.product_name = .ok nm) :
    encodeConfig c = .ok (vp ++ encGpio c.led_gpio ++ encBrightness c.led_brightness ++
      encTouch c.touch_timeout ++
      encOpts c.led_dimmable c.power_cycle_on_reset c.led_steady ++
      encCurves c.enable_secp256k1 ++ encDriver c.led_driver ++ nm) := by
  unfold encodeConfig
  rw [hvp, hnm]
  rfl

lemma encodeConfig_err_name (c : AppConfigInput) (vp : List Nat) (e : AppError)
    (hvp : encVidPid c.vid c.pid = .ok vp)
    (hnm : encName c.product_name = .error e) :
    encodeConfig c = .error e := by
  unfold encodeConfig
  rw [hvp, hnm]
  rfl

/-- C3 -/
theorem C3_emission_order (c : AppConfigInput) (bs : List Nat)
    (hok : encodeConfig c = .ok bs) :
    ∃ vp nm,
      encVidPid c.vid c.pid = .ok vp ∧ encName c.product_name = .ok nm ∧
      bs = vp ++ encGpio c.led_gpio ++ encBrightness c.led_brightness ++
        encTouch c.touch_timeout ++
        encOpts c.led_dimmable c.power_cycle_on_reset c.led_steady ++
        encCurves c.enable_secp256k1 ++ encDriver c.led_driver ++ nm ∧
      (vp ≠ [] ↔ c.vid.isSome = true ∧ c.pid.isSome = true) ∧
      (vp = [] ∨ vp.head? = some 0x00) ∧
      (encGpio c.led_gpio ≠ [] ↔ c.led_gpio.isSome = true) ∧
      (encGpio c.led_gpio = [] ∨ (encGpio c.led_gpio).head? = some 0x04) ∧
      (encBrightness c.led_brightness ≠ [] ↔ c.led_brightness.isSome = true) ∧
      (encBrightness c.led_brightness = [] ∨
        (encBrightness c.led_brightness).head? = some 0x05) ∧
      (encTouch c.touch_timeout ≠ [] ↔ c.touch_timeout.isSome = true) ∧
      (encTouch c.touch_timeout = [] ∨ (encTouch c.touch_timeout).head? = some 0x08) ∧
      (encOpts c.led_dimmable c.power_cycle_on_reset c.led_steady ≠ [] ↔
        c.led_dimmable.isSome = true ∧ c.power_cycle_on_reset.isSome = true ∧
        c.led_steady.isSome = true) ∧
      (encOpts c.led_dimmable c.power_cycle_on_reset c.led_steady = [] ∨
        (encOpts c.led_dimmable c.power_cycle_on_reset c.led_steady).head? = some 0x06) ∧
      (encCurves c.enable_secp256k1 ≠ [] ↔ c.enable_secp256k1.isSome = true) ∧
      (encCurves c.enable_secp256k1 = [] ∨
        (encCurves c.enable_secp256k1).head? = some 0x0A) ∧
      (encDriver c.led_driver ≠ [] ↔ c.led_driver.isSome = true) ∧
      (encDriver c.led_driver = [] ∨ (encDriver c.led_driver).head? = some 0x0C) ∧
      (nm ≠ [] ↔ ∃ name, c.product_name = some name ∧ name ≠ []) ∧
      (nm = [] ∨ nm.head? = some 0x09) := by
  obtain ⟨vp, nm, hvp, hnm, hbs⟩ := encodeConfig_decompose c bs hok
  have hvpf : (vp ≠ [] ↔ c.vid.isSome = true ∧ c.pid.isSome = true) ∧
      (vp = [] ∨ vp.head? = some 0x00) := by
    rcases encVidPid_shape _ _ _ hvp with ⟨vs, ps, v, p, hv, hp, _, _, rfl⟩ | ⟨hnp, rfl⟩
    · simp [hv, hp]
    · rcases hnp with hn | hn <;> simp [hn]
  have hgf : (encGpio c.led_gpio ≠ [] ↔ c.led_gpio.isSome = true) ∧
      (encGpio c.led_gpio = [] ∨ (encGpio c.led_gpio).head? = some 0x04) := by
    cases c.led_gpio <;> simp [encGpio]
  have hbf : (encBrightness c.led_brightness ≠ [] ↔ c.led_brightness.isSome = true) ∧
      (encBrightness c.led_brightness = [] ∨
        (encBrightness c.led_brightness).head? = some 0x05) := by
    cases c.led_brightness <;> simp [encBrightness]
  have htf : (encTouch c.touch_timeout ≠ [] ↔ c.touch_timeout.isSome = true) ∧
      (encTouch c.touch_timeout = [] ∨ (encTouch c.touch_timeout).head? = some 0x08) := by
    cases c.touch_timeout <;> simp [encTouch]
  have hof : (encOpts c.led_dimmable c.power_cycle_on_reset c.led_steady ≠ [] ↔
      c.led_dimmable.isSome = true ∧ c.power_cycle_on_reset.isSome = true ∧
      c.led_steady.isSome = true) ∧
      (encOpts c.led_dimmable c.power_cycle_on_reset c.led_steady = [] ∨
        (encOpts c.led_dimmable c.power_cycle_on_reset c.led_steady).head? = some 0x06) := by
    cases c.led_dimmable <;> cases c.power_cycle_on_reset <;> cases c.led_steady <;>
      simp [encOpts]
  have hcf : (encCurves c.enable_secp256k1 ≠ [] ↔ c.enable_secp256k1.isSome = true) ∧
      (encCurves c.enable_secp256k1 = [] ∨
        (encCurves c.enable_secp256k1).head? = some 0x0A) := by
    cases c.enable_secp256k1 <;> simp [encCurves]
  have hdf : (encDriver c.led_driver ≠ [] ↔ c.led_driver.isSome = true) ∧
      (encDriver c.led_driver = [] ∨ (encDriver c.led_driver).head? = some 0x0C) := by
    cases c.led_driver <;> simp [encDriver]
  have hnf : (nm ≠ [] ↔ ∃ name, c.product_name = some name ∧ name ≠ []) ∧
      (nm = [] ∨ nm.head? = some 0x09) := by
    rcases encName_shape _ _ hnm with ⟨name, hn, hne, _, rfl⟩ | ⟨hn2, rfl⟩
    · constructor
      · simp only [ne_eq, List.cons_append, List.append_eq_nil]
        constructor
        · intro _
          exact ⟨name, hn, hne⟩
        · intro _
          simp
      · right
        rfl
    · constructor
      · constructor
        · intro hx
          exact absurd rfl hx
        · rintro ⟨name, hna, hne⟩
          rcases hn2 with hz | hz <;> rw [hz] at hna
          · exact absurd hna (by simp)
          · simp only [Option.some.injEq] at hna
            exact absurd hna.symm hne
      · exact Or.inl rfl
  exact ⟨vp, nm, hvp, hnm, hbs, hvpf.1, hvpf.2, hgf.1, hgf.2, hbf.1, hbf.2, htf.1, htf.2,
    hof.1, hof.2, hcf.1, hcf.2, hdf.1, hdf.2, hnf.1, hnf.2⟩

theorem C3_witness :
    ∃ vp nm,
      encVidPid emptyInput.vid emptyInput.pid = .ok vp ∧
      encName emptyInput.product_name = .ok nm ∧
      ([] : List Nat) = vp ++ encGpio emptyInput.led_gpio ++
        encBrightness emptyInput.led_brightness ++ encTouch emptyInput.touch_timeout ++
        encOpts emptyInput.led_dimmable emptyInput.power_cycle_on_reset
          emptyInput.led_steady ++
        encCurves emptyInput.enable_secp256k1 ++ encDriver emptyInput.led_driver ++ nm ∧
      (vp ≠ [] ↔ emptyInput.vid.isSome = true ∧ emptyInput.pid.isSome = true) ∧
      (vp = [] ∨ vp.head? = some 0x00) ∧
      (encGpio emptyInput.led_gpio ≠ [] ↔ emptyInput.led_gpio.isSome = true) ∧
      (encGpio emptyInput.led_gpio = [] ∨ (encGpio emptyInput.led_gpio).head? = some 0x04) ∧
      (encBrightness emptyInput.led_brightness ≠ [] ↔
        emptyInput.led_brightness.isSome = true) ∧
      (encBrightness emptyInput.led_brightness = [] ∨
        (encBrightness emptyInput.led_brightness).head? = some 0x05) ∧
      (encTouch emptyInput.touch_timeout ≠ [] ↔ emptyInput.touch_timeout.isSome = true) ∧
      (encTouch emptyInput.touch_timeout = [] ∨
        (encTouch emptyInput.touch_timeout).head? = some 0x08) ∧
      (encOpts emptyInput.led_dimmable emptyInput.power_cycle_on_reset
          emptyInput.led_steady ≠ [] ↔
        emptyInput.led_dimmable.isSome = true ∧
        emptyInput.power_cycle_on_reset.isSome = true ∧
        emptyInput.led_steady.isSome = true) ∧
      (encOpts emptyInput.led_dimmable emptyInput.power_cycle_on_reset
          emptyInput.led_steady = [] ∨
        (encOpts emptyInput.led_dimmable emptyInput.power_cycle_on_reset
          emptyInput.led_steady).head? = some 0x06) ∧
      (encCurves emptyInput.enable_secp256k1 ≠ [] ↔
        emptyInput.enable_secp256k1.isSome = true) ∧
      (encCurves emptyInput.enable_secp256k1 = [] ∨
        (encCurves emptyInput.enable_secp256k1).head? = some 0x0A) ∧
      (encDriver emptyInput.led_driver ≠ [] ↔ emptyInput.led_driver.isSome = true) ∧
      (encDriver emptyInput.led_driver = [] ∨
        (encDriver emptyInput.led_driver).head? = some 0x0C) ∧
      (nm ≠ [] ↔ ∃ name, emptyInput.product_name = some name ∧ name ≠ []) ∧
      (nm = [] ∨ nm.head? = some 0x09) :=
  C3_emission_order emptyInput [] rfl

/-- C4 counterexample: a 31-byte product name does not guarantee a
successful encode when another field fails validation first. -/
theorem C4_counterexample :
    (List.replicate 31 0x41).length = 31 ∧
    encodeConfig ⟨some "XYZ", some "0000", some (List.replicate 31 0x41),
        none, none, none, none, none, none, none, none⟩ =
      .error (AppError.Io "Invalid VID") := by
  constructor
  · simp
  · rfl

/-- C4 amended -/
theorem C4_product_boundary (c : AppConfigInput) (name : List Nat)
    (hpn : c.product_name = some name)
    (hhex : ∀ vs ps, c.vid = some vs → c.pid = some ps →
      (fromStrRadix16 vs).isSome = true ∧ (fromStrRadix16 ps).isSome = true) :
    (name.length = 31 →
      ∃ bs pre, encodeConfig c = .ok bs ∧
        bs = pre ++ ([0x09, 32] ++ name ++ [0x00]) ∧
        (name ++ [0x00]).length = 32) ∧
    (32 ≤ name.length →
      encodeConfig c = .error (AppError.Io "Product name too long") ∧
      ∀ dev : CardDevice,
        write_config dev c = (.error (AppError.Io "Product name too long"), [])) := by
  have hvp : ∃ vp, encVidPid c.vid c.pid = .ok vp := by
    cases hv : c.vid with
    | none => cases hp : c.pid <;> exact ⟨[], rfl⟩
    | some vs =>
      cases hp : c.pid with
      | none => exact ⟨[], rfl⟩
      | some ps =>
        obtain ⟨h1, h2⟩ := hhex vs ps hv hp
        obtain ⟨v, hv2⟩ := Option.isSome_iff_exists.mp h1
        obtain ⟨p, hp2⟩ := Option.isSome_iff_exists.mp h2
        exact ⟨_, encVidPid_ok_of vs ps v p hv2 hp2⟩
  obtain ⟨vp, hvp⟩ := hvp
  constructor
  · intro h31
    have hne : name ≠ [] := by
      intro h
      rw [h] at h31
      simp at h31
    have hnm : encName c.product_name = .ok ([0x09, 32] ++ name ++ [0x00]) := by
      rw [hpn]
      have hx := encName_ok_of name hne (by omega)
      rw [h31] at hx
      exact hx
    refine ⟨_, vp ++ encGpio c.led_gpio ++ encBrightness c.led_brightness ++
      encTouch c.touch_timeout ++
      encOpts c.led_dimmable c.power_cycle_on_reset c.led_steady ++
      encCurves c.enable_secp256k1 ++ encDriver c.led_driver,
      encodeConfig_ok_of c vp _ hvp hnm, rfl, ?_⟩
    simp [h31]
  · intro h32
    have hnm : encName c.product_name = .error (AppError.Io "Product name too long") := by
      rw [hpn]
      exact encName_err_of name h32
    have henc := encodeConfig_err_name c vp _ hvp hnm
    refine ⟨henc, ?_⟩
    intro dev
    simp [write_config, henc]

theorem C4_witness :
    (∃ bs pre,
      encodeConfig ⟨none, none, some (List.replicate 31 0x41), none, none, none, none,
          none, none, none, none⟩ = .ok bs ∧
      bs = pre ++ ([0x09, 32] ++ List.replicate 31 0x41 ++ [0x00]) ∧
      (List.replicate 31 0x41 ++ [0x00]).length = 32) ∧
    encodeConfig ⟨none, none, some (List.replicate 32 0x41), none, none, none, none,
        none, none, none, none⟩ = .error (AppError.Io "Product name too long") ∧
    write_config testDevice ⟨none, none, some (List.replicate 32 0x41), none, none, none,
        none, none, none, none, none⟩ =
      (.error (AppError.Io "Product name too long"), []) :=
  ⟨(C4_product_boundary ⟨none, none, some (List.replicate 31 0x41), none, none, none, none,
        none, none, none, none⟩ (List.replicate 31 0x41) rfl
      (fun vs ps h _ => nomatch h)).1 (by simp),
    ((C4_product_boundary ⟨none, none, some (List.replicate 32 0x41), none, none, none, none,
        none, none, none, none⟩ (List.replicate 32 0x41) rfl
      (fun vs ps h _ => nomatch h)).2 (by simp)).1,
    (((C4_product_boundary ⟨none, none, some (List.replicate 32 0x41), none, none, none, none,
        none, none, none, none⟩ (List.replicate 32 0x41) rfl
      (fun vs ps h _ => nomatch h)).2 (by simp)).2 testDevice)⟩

lemma encCurves_some (secp : Bool) :
    encCurves (some secp) = [0x0A, 0x04, 0, 0, 0, if secp then 8 else 0] := by
  cases secp <;> rfl

lemma optsVal_bits (dim cyc st : Bool) :
    ((((if dim then 2 else 0) + (if cyc then 0 else 4) + (if st then 8 else 0)) &&& 2) != 0)
        = dim ∧
    ((((if dim then 2 else 0) + (if cyc then 0 else 4) + (if st then 8 else 0)) &&& 4) == 0)
        = cyc ∧
    ((((if dim then 2 else 0) + (if cyc then 0 else 4) + (if st then 8 else 0)) &&& 8) != 0)
        = st := by
  cases dim <;> cases cyc <;> cases st <;> exact ⟨rfl, rfl, rfl⟩

lemma curvesVal_bit (secp : Bool) :
    (((if secp then (8 : Nat) else 0) &&& 8) != 0) = secp := by
  cases secp <;> rfl

/-- C1 amended -/
theorem C1_round_trip (vs ps : String) (nm : List Nat) (g b t d : Nat)
    (dim cyc st secp : Bool)
    (hvs : isUpperHex4 vs = true) (hps : isUpperHex4 ps = true)
    (hne : nm ≠ []) (hlen : nm.length ≤ 31) (hutf : validUtf8 nm = true)
    (hh : nm.head? ≠ some 0) (hl : nm.getLast? ≠ some 0) :
    ∃ bs,
      encodeConfig ⟨some vs, some ps, some nm, some g, some b, some t, some d,
        some dim, some cyc, some st, some secp⟩ = .ok bs ∧
      decodeTLV bs = ⟨vs, ps, nm, g, b, t, some d, dim, cyc, st, secp⟩ := by
  obtain ⟨v, hv, hvlt, hv4⟩ := upperHex4_parse vs hvs
  obtain ⟨p, hp, hplt, hp4⟩ := upperHex4_parse ps hps
  have hvp := encVidPid_ok_of vs ps v p hv hp
  have hnm := encName_ok_of nm hne (by omega)
  have henc := encodeConfig_ok_of
    ⟨some vs, some ps, some nm, some g, some b, some t, some d,
      some dim, some cyc, some st, some secp⟩ _ _ hvp hnm
  refine ⟨_, henc, ?_⟩
  have hflat :
      ([0x00, 0x04, v / 256, v % 256, p / 256, p % 256] ++
        encGpio (some g) ++ encBrightness (some b) ++ encTouch (some t) ++
        encOpts (some dim) (some cyc) (some st) ++ encCurves (some secp) ++
        encDriver (some d) ++ ([0x09, nm.length + 1] ++ nm ++ [0x00])) =
      tlvFlatten
        [(0x00, [v / 256, v % 256, p / 256, p % 256]),
         (0x04, [g]), (0x05, [b]), (0x08, [t]),
         (0x06, [0x00,
           (if dim then 2 else 0) + (if cyc then 0 else 4) + (if st then 8 else 0)]),
         (0x0A, [0, 0, 0, if secp then 8 else 0]),
         (0x0C, [d]), (0x09, nm ++ [0x00])] := by
    simp [tlvFlatten, encGpio, encBrightness, encTouch, encDriver, encOpts_some,
      encCurves_some, List.append_assoc]
  show decodeTLV _ = _
  unfold decodeTLV
  rw [hflat, decodeGo_tlvFlatten _ _ _ le_rfl]
  simp only [List.foldl]
  have hvut : validUtf8 (nm ++ [0]) = true := validUtf8_append_nul nm hutf
  have htrim : trimNul (nm ++ [0]) = nm := trimNul_append_nul nm hne hh hl
  have hvsplit : v / 256 * 256 + v % 256 = v := by omega
  have hpsplit : p / 256 * 256 + p % 256 = p := by omega
  simp only [decodeStep, AppConfig.default]
  simp [hvut, htrim, hvsplit, hpsplit, hv4, hp4, optsVal_bits, curvesVal_bit]

/-- C1 counterexample: a lower-case (but valid) 4-digit hex VID is not
reproduced, because decoding re-renders it upper-case. -/
theorem C1_counterexample :
    ∃ bs,
      encodeConfig ⟨some "00ab", some "0000", some [0x41], some 1, some 1, some 1,
        some 1, some true, some true, some true, some true⟩ = .ok bs ∧
      (decodeTLV bs).vid = "00AB" ∧ (decodeTLV bs).vid ≠ "00ab" := by
  refine ⟨[0x00, 0x04, 0x00, 0xAB, 0x00, 0x00, 0x04, 0x01, 0x01, 0x05, 0x01, 0x01,
    0x08, 0x01, 0x01, 0x06, 0x02, 0x00, 0x0A, 0x0A, 0x04, 0x00, 0x00, 0x00, 0x08,
    0x0C, 0x01, 0x01, 0x09, 0x02, 0x41, 0x00], rfl, by decide, by decide⟩

theorem C1_witness :
    ∃ bs,
      encodeConfig ⟨some "1234", some "5678", some [0x41], some 1, some 1, some 1,
        some 1, some true, some true, some true, some true⟩ = .ok bs ∧
      decodeTLV bs =
        ⟨"1234", "5678", [0x41], 1, 1, 1, some 1, true, true, true, true⟩ :=
  C1_round_trip "1234" "5678" [0x41] 1 1 1 1 true true true true
    (by decide) (by decide) (by decide) (by decide) (by decide) (by decide) (by decide)

end Picoforge
